import Mathlib

/-!
Verification development for the pilobster assistant.

Python strings are modelled as `List Char` (a Python `str` is a sequence of
code points).  Each definition mirrors one function of the source tree
(`pilobster/agent.py`, `pilobster/scheduler.py`, `pilobster/memory.py`,
`pilobster/tui.py`, `workspace.py`); the doc comment of every definition
names the function it embeds.
-/

set_option maxRecDepth 10000

abbrev Str := List Char

/-- Python `\s` / `str.isspace` on the ASCII range (all inputs considered
here are ASCII): space, tab, newline, carriage return, vertical tab,
form feed. -/
def isPySpace (c : Char) : Bool :=
  c = ' ' || c = '\t' || c = '\n' || c = '\r' || c = '\x0b' || c = '\x0c'

/-- Python `str.lstrip()`. -/
def pyLStrip (s : Str) : Str := s.dropWhile isPySpace

/-- Python `str.rstrip()`. -/
def pyRStrip (s : Str) : Str := (s.reverse.dropWhile isPySpace).reverse

/-- Python `str.strip()`: whitespace removed from both ends. -/
def pyStrip (s : Str) : Str := pyRStrip (pyLStrip s)

/-- Python `str.split()` with no separator: split on whitespace runs,
dropping empty fields. -/
def pySplit (s : Str) : List Str :=
  (List.splitOnP isPySpace s).filter (fun w => w ≠ [])

/-- The character at index `i`, `none` past the end. -/
def charAt (s : Str) (i : Nat) : Option Char := s.get? i

/-- Does the literal `lit` occur in `s` starting at index `i`? -/
def litAt (lit s : Str) (i : Nat) : Bool := lit.isPrefixOf (s.drop i)

/-- Length of the maximal whitespace run of `s` starting at index `i`
(the maximal text a greedy `\s*` can consume there). -/
def wsRun (s : Str) (i : Nat) : Nat := ((s.drop i).takeWhile isPySpace).length

/-- Length of the maximal non-whitespace run of `s` starting at index `i`
(the maximal text a greedy `\S+` can consume there). -/
def nwsRun (s : Str) (i : Nat) : Nat :=
  ((s.drop i).takeWhile (fun c => !isPySpace c)).length

/-- Candidate consumption counts for a greedy `\s*`: `n, n-1, …, 0`. -/
def descRange (n : Nat) : List Nat := (List.range (n + 1)).reverse

/-- Candidate consumption counts for a greedy `\S+`: `n, n-1, …, 1`. -/
def descRange1 (n : Nat) : List Nat := ((List.range n).map (fun k => k + 1)).reverse

/-- The slice `s[a:b]`. -/
def seg (s : Str) (a b : Nat) : Str := (s.take b).drop a

/-- Backtracking match, at position `i` of `s`, of the Python regex
`TAG\s*\n(.*?)\n\s*` followed by three backticks, with `re.DOTALL` —
the shape of the `cron` and `memory` block patterns of `agent.py`
(`parse_cron_blocks`, `parse_memory_blocks`, `clean_response`).
Returns `(capture start, capture end, match end)`.  The first `\s*` is
greedy (longest first), the group `(.*?)` lazy (shortest first), the
second `\s*` greedy, exactly as the `re` engine backtracks. -/
def fencedMatchAt (tag : Str) (s : Str) (i : Nat) : Option (Nat × Nat × Nat) :=
  if litAt tag s i then
    let p1 := i + tag.length
    (descRange (wsRun s p1)).findSome? (fun a =>
      if charAt s (p1 + a) = some '\n' then
        let p2 := p1 + a + 1
        (List.range (s.length + 1)).findSome? (fun b =>
          if charAt s (p2 + b) = some '\n' then
            let p3 := p2 + b + 1
            (descRange (wsRun s p3)).findSome? (fun c =>
              if litAt ("```".toList) s (p3 + c) then
                some (p2, p2 + b, p3 + c + 3)
              else none)
          else none)
      else none)
  else none

/-- Backtracking match, at position `i` of `s`, of the Python regex
`r"` + "```save:" + `(\S+)\s*\n(.*?)\n\s*" ++ "```"` with `re.DOTALL`
(`parse_save_blocks`, `clean_response` in `agent.py`).  Returns
`(filename start, filename end, content start, content end, match end)`;
`\S+` is greedy with backtracking. -/
def saveMatchAt (s : Str) (i : Nat) : Option (Nat × Nat × Nat × Nat × Nat) :=
  if litAt ("```save:".toList) s i then
    let p0 := i + 8
    (descRange1 (nwsRun s p0)).findSome? (fun d =>
      let p1 := p0 + d
      (descRange (wsRun s p1)).findSome? (fun a =>
        if charAt s (p1 + a) = some '\n' then
          let p2 := p1 + a + 1
          (List.range (s.length + 1)).findSome? (fun b =>
            if charAt s (p2 + b) = some '\n' then
              let p3 := p2 + b + 1
              (descRange (wsRun s p3)).findSome? (fun c =>
                if litAt ("```".toList) s (p3 + c) then
                  some (p0, p0 + d, p2, p2 + b, p3 + c + 3)
                else none)
            else none)
        else none))
  else none

/-- A matcher in the shape the `re.sub` / `re.findall` drivers need:
at a position it either fails or yields the match end together with the
captured substrings. -/
abbrev Matcher := Str → Nat → Option (Nat × List Str)

/-- The `cron`-block matcher of `agent.py` as a `Matcher` (one capture:
the block body). -/
def cronM : Matcher := fun s i =>
  (fencedMatchAt ("```cron".toList) s i).map
    (fun r => (r.2.2, [seg s r.1 r.2.1]))

/-- The `memory`-block matcher of `agent.py` as a `Matcher`. -/
def memM : Matcher := fun s i =>
  (fencedMatchAt ("```memory".toList) s i).map
    (fun r => (r.2.2, [seg s r.1 r.2.1]))

/-- The `save`-block matcher of `agent.py` as a `Matcher` (two captures:
filename and content). -/
def saveM : Matcher := fun s i =>
  (saveMatchAt s i).map
    (fun r => (r.2.2.2.2, [seg s r.1 r.2.1, seg s r.2.2.1 r.2.2.2.1]))

/-- Leftmost match of `m` in `s`: `(start, end, captures)` at the least
starting position, as the `re` scanner finds it. -/
def reScan (m : Matcher) (s : Str) : Option (Nat × Nat × List Str) :=
  (List.range s.length).findSome? (fun i =>
    (m s i).map (fun r => (i, r.1, r.2)))

/-- Fuelled core of `re.sub(pattern, "", s)`: delete non-overlapping
matches left to right, resuming at each match end.  Every match of the
block patterns spans at least three characters, so fuel `s.length`
never runs out. -/
def reSubDelAux (m : Matcher) : Nat → Str → Str
  | 0, s => s
  | fuel + 1, s =>
    match reScan m s with
    | none => s
    | some (i, e, _) => s.take i ++ reSubDelAux m fuel (s.drop e)

/-- `re.sub(pattern, "", s, flags=re.DOTALL)` for a block pattern. -/
def reSubDel (m : Matcher) (s : Str) : Str := reSubDelAux m s.length s

/-- Fuelled core of `re.findall`: collect the captures of the
non-overlapping matches, left to right. -/
def reFindAllAux (m : Matcher) : Nat → Str → List (List Str)
  | 0, _ => []
  | fuel + 1, s =>
    match reScan m s with
    | none => []
    | some (_, e, caps) => caps :: reFindAllAux m fuel (s.drop e)

/-- `re.findall(pattern, s, flags=re.DOTALL)` for a block pattern,
returning each match's captures. -/
def reFindAll (m : Matcher) (s : Str) : List (List Str) :=
  reFindAllAux m s.length s

/-- `Agent.clean_response` (agent.py 225-231): delete all `cron` blocks,
then all `save` blocks, then all `memory` blocks, then `str.strip`. -/
def clean_response (text : Str) : Str :=
  pyStrip (reSubDel memM (reSubDel saveM (reSubDel cronM text)))

/-- The bodies of the `cron` blocks of `text`, in order — the list
`re.findall` hands to the loop of `Agent.parse_cron_blocks`. -/
def cronBodies (text : Str) : List Str :=
  (reFindAll cronM text).map (fun caps => caps.headD [])

/-- `Agent.parse_save_blocks` (agent.py 184-195): the
`(filename, content)` pairs of the `save` blocks, verbatim. -/
def parse_save_blocks (text : Str) : List (Str × Str) :=
  (reFindAll saveM text).map (fun caps => (caps.headD [], (caps.drop 1).headD []))

/-- `Agent.parse_memory_blocks` (agent.py 197-210): the stripped bodies
of the `memory` blocks, empty ones dropped. -/
def parse_memory_blocks (text : Str) : List Str :=
  (((reFindAll memM text).map (fun caps => caps.headD [])).map pyStrip).filter
    (fun f => f ≠ [])

/-! ## JSON (`json.loads`), as `Agent.parse_cron_blocks` consumes it

Values are modelled structurally; a number keeps its lexeme (its numeric
value is never consumed by the program).  `\uXXXX` escapes are decoded as
a single code point (surrogate-pair combination is not modelled; no input
below uses it).  Python's permissive constants `NaN`, `Infinity`,
`-Infinity` are accepted as number lexemes, as `json.loads` does. -/

inductive Json where
  | null : Json
  | bool (b : Bool) : Json
  | num (lexeme : Str) : Json
  | str (s : Str) : Json
  | arr (elems : List Json) : Json
  | obj (members : List (Str × Json)) : Json

/-- JSON inter-token whitespace (`' '`, `'\t'`, `'\n'`, `'\r'`). -/
def isJsonWs (c : Char) : Bool := c = ' ' || c = '\t' || c = '\n' || c = '\r'

def skipWs (s : Str) : Str := s.dropWhile isJsonWs

def isDigit (c : Char) : Bool := '0' ≤ c && c ≤ '9'

def hexVal (c : Char) : Option Nat :=
  if '0' ≤ c && c ≤ '9' then some (c.toNat - 48)
  else if 'a' ≤ c && c ≤ 'f' then some (c.toNat - 87)
  else if 'A' ≤ c && c ≤ 'F' then some (c.toNat - 55)
  else none

/-- Single-character escapes of JSON strings. -/
def escChar (c : Char) : Option Char :=
  if c = '"' then some '"'
  else if c = '\\' then some '\\'
  else if c = '/' then some '/'
  else if c = 'b' then some '\x08'
  else if c = 'f' then some '\x0c'
  else if c = 'n' then some '\n'
  else if c = 'r' then some '\r'
  else if c = 't' then some '\t'
  else none

/-- Body of a JSON string after the opening quote: decoded characters and
the remaining input after the closing quote.  Literal control characters
are rejected (`strict=True`, the `json.loads` default). -/
def parseStringBody : Nat → Str → Option (Str × Str)
  | 0, _ => none
  | _, [] => none
  | fuel + 1, c :: rest =>
    if c = '"' then some ([], rest)
    else if c = '\\' then
      match rest with
      | [] => none
      | e :: rest2 =>
        match escChar e with
        | some d => (parseStringBody fuel rest2).map (fun r => (d :: r.1, r.2))
        | none =>
          if e = 'u' then
            match rest2 with
            | h1 :: h2 :: h3 :: h4 :: rest3 =>
              match hexVal h1, hexVal h2, hexVal h3, hexVal h4 with
              | some v1, some v2, some v3, some v4 =>
                (parseStringBody fuel rest3).map
                  (fun r => (Char.ofNat (((v1 * 16 + v2) * 16 + v3) * 16 + v4) :: r.1, r.2))
              | _, _, _, _ => none
            | _ => none
          else none
    else if c.toNat < 32 then none
    else (parseStringBody fuel rest).map (fun r => (c :: r.1, r.2))

/-- JSON number lexeme at the head of the input:
`-?(0|[1-9][0-9]*)(\.[0-9]+)?([eE][-+]?[0-9]+)?`. -/
def parseNumber (s : Str) : Option (Str × Str) :=
  let (sign, s1) :=
    match s with
    | '-' :: r => (['-'], r)
    | _ => (([] : Str), s)
  match s1 with
  | [] => none
  | c :: _ =>
    if !isDigit c then none
    else
      let (ip, s2) :=
        if c = '0' then (['0'], s1.drop 1)
        else (s1.takeWhile isDigit, s1.dropWhile isDigit)
      let (fp, s3) :=
        match s2 with
        | '.' :: r =>
          let ds := r.takeWhile isDigit
          if ds = [] then (([] : Str), s2) else ('.' :: ds, r.dropWhile isDigit)
        | _ => (([] : Str), s2)
      if fp = [] ∧ s2 ≠ [] ∧ s2.headD ' ' = '.' then none
      else
        let (ep, s4) :=
          match s3 with
          | e :: r =>
            if e = 'e' ∨ e = 'E' then
              let (es, r2) :=
                match r with
                | '+' :: r3 => (['+'], r3)
                | '-' :: r3 => (['-'], r3)
                | _ => (([] : Str), r)
              let ds := r2.takeWhile isDigit
              if ds = [] then (([] : Str), s3)
              else (e :: (es ++ ds), r2.dropWhile isDigit)
            else (([] : Str), s3)
          | [] => (([] : Str), s3)
        some (sign ++ ip ++ fp ++ ep, s4)

mutual

/-- One JSON value at the head of the input (no leading whitespace). -/
def parseValue : Nat → Str → Option (Json × Str)
  | 0, _ => none
  | fuel + 1, s =>
    match s with
    | [] => none
    | c :: rest =>
      if c = '"' then (parseStringBody fuel rest).map (fun r => (.str r.1, r.2))
      else if c = '{' then
        match skipWs rest with
        | '}' :: r => some (.obj [], r)
        | _ => (parseMembers fuel rest).map (fun r => (.obj r.1, r.2))
      else if c = '[' then
        match skipWs rest with
        | ']' :: r => some (.arr [], r)
        | _ => (parseElements fuel rest).map (fun r => (.arr r.1, r.2))
      else if litAt ("true".toList) s 0 then some (.bool true, s.drop 4)
      else if litAt ("false".toList) s 0 then some (.bool false, s.drop 5)
      else if litAt ("null".toList) s 0 then some (.null, s.drop 4)
      else if litAt ("NaN".toList) s 0 then some (.num ("NaN".toList), s.drop 3)
      else if litAt ("Infinity".toList) s 0 then some (.num ("Infinity".toList), s.drop 8)
      else if litAt ("-Infinity".toList) s 0 then some (.num ("-Infinity".toList), s.drop 9)
      else (parseNumber s).map (fun r => (.num r.1, r.2))

/-- `"key": value` members of an object, up to and including the closing
brace. -/
def parseMembers : Nat → Str → Option (List (Str × Json) × Str)
  | 0, _ => none
  | fuel + 1, s =>
    match skipWs s with
    | '"' :: r =>
      match parseStringBody fuel r with
      | none => none
      | some (k, r1) =>
        match skipWs r1 with
        | ':' :: r2 =>
          match parseValue fuel (skipWs r2) with
          | none => none
          | some (v, r3) =>
            match skipWs r3 with
            | ',' :: r4 =>
              (parseMembers fuel r4).map (fun t => ((k, v) :: t.1, t.2))
            | '}' :: r4 => some ([(k, v)], r4)
            | _ => none
        | _ => none
    | _ => none

/-- Elements of an array, up to and including the closing bracket. -/
def parseElements : Nat → Str → Option (List Json × Str)
  | 0, _ => none
  | fuel + 1, s =>
    match parseValue fuel (skipWs s) with
    | none => none
    | some (v, r) =>
      match skipWs r with
      | ',' :: r2 => (parseElements fuel r2).map (fun t => (v :: t.1, t.2))
      | ']' :: r2 => some ([v], r2)
      | _ => none

end

/-- `json.loads`: one value, optionally surrounded by whitespace; anything
further is an error (`Extra data`).  The parse error detail is not
tracked (the caller only catches `JSONDecodeError`). -/
def json_loads (s : Str) : Except Unit Json :=
  match parseValue (s.length + 1) (skipWs s) with
  | some (v, rest) => if skipWs rest = [] then .ok v else .error ()
  | none => .error ()

/-! ## `Agent.parse_cron_blocks` (agent.py 145-182) -/

/-- Python `k in job` for a decoded JSON value: key membership for a
dict, substring for a str, element membership for a list; for an int,
float, bool or `None` it raises `TypeError` (modelled as `.error`). -/
def pyContains (j : Json) (k : Str) : Except Unit Bool :=
  match j with
  | .obj kvs => .ok (kvs.any (fun kv => kv.1 = k))
  | .str s => .ok (decide (k <:+: s))
  | .arr xs => .ok (xs.any (fun x => match x with | .str s => s = k | _ => false))
  | .num _ => .error ()
  | .bool _ => .error ()
  | .null => .error ()

/-- Python `job[k]` for a decoded JSON value: dict lookup (last binding
wins for duplicate keys, as `dict` construction does); a str or list
indexed by a str raises `TypeError`, absent keys raise `KeyError` —
both modelled as `.error`. -/
def pyGetItem (j : Json) (k : Str) : Except Unit Json :=
  match j with
  | .obj kvs => match (kvs.filter (fun kv => kv.1 = k)).getLast? with
    | some kv => .ok kv.2
    | none => .error ()
  | _ => .error ()

/-- `("schedule", "task", "message")`, the tuple iterated by the
missing-fields comprehension. -/
def requiredKeys : List Str := [("schedule".toList), ("task".toList), ("message".toList)]

/-- `[k for k in ("schedule", "task", "message") if k not in job]`,
left to right; a `TypeError` from `in` propagates. -/
def missingKeys (j : Json) : Except Unit (List Str) :=
  requiredKeys.foldr
    (fun k acc =>
      match pyContains j k, acc with
      | .error _, _ => .error ()
      | _, .error _ => .error ()
      | .ok b, .ok rest => .ok (if b then rest else k :: rest))
    (.ok [])

def missingMsg (missing : List Str) : Str :=
  ("Missing required fields: ".toList) ++ List.intercalate (", ".toList) missing

def invalidCronMsg (schedule : Str) : Str :=
  ("Invalid cron format '".toList) ++ schedule ++
    ("' - needs 5 fields (minute hour day month weekday)".toList)

def invalidJsonMsg : Str := "Invalid JSON in cron block".toList

/-- What one iteration of the `parse_cron_blocks` loop does with one
block body: append a job, append an error string, or raise (an uncaught
`TypeError`/`AttributeError`; only `json.JSONDecodeError` is caught). -/
inductive CronOutcome where
  | job (j : Json) : CronOutcome
  | err (e : Str) : CronOutcome
  | exc : CronOutcome

/-- The five-field check of the `parse_cron_blocks` loop:
`job["schedule"].split()` — `job[...]` on a non-dict and `.split()` on a
non-str raise (`.exc`). -/
def cronCheckSchedule (j : Json) : CronOutcome :=
  match pyGetItem j ("schedule".toList) with
  | .error _ => .exc
  | .ok v =>
    match v with
    | .str schedule =>
      if (pySplit schedule).length ≠ 5 then .err (invalidCronMsg schedule)
      else .job j
    | _ => .exc

/-- The missing-fields check of the `parse_cron_blocks` loop, then the
schedule check. -/
def cronValidate (j : Json) : CronOutcome :=
  match missingKeys j with
  | .error _ => .exc
  | .ok missing =>
    if missing ≠ [] then .err (missingMsg missing)
    else cronCheckSchedule j

/-- The loop body of `Agent.parse_cron_blocks` for one matched block
body: `json.loads(match.strip())`, the missing-fields check, then the
five-field check on `job["schedule"].split()`. -/
def processCronBody (body : Str) : CronOutcome :=
  match json_loads (pyStrip body) with
  | .error _ => .err invalidJsonMsg
  | .ok j => cronValidate j

/-- Sequential accumulation of the loop of `parse_cron_blocks` over the
matched bodies; an uncaught exception aborts the whole call. -/
def parseCronList : List Str → Except Unit (List Json × List Str)
  | [] => .ok ([], [])
  | b :: rest =>
    match processCronBody b with
    | .exc => .error ()
    | .job j => (parseCronList rest).map (fun r => (j :: r.1, r.2))
    | .err e => (parseCronList rest).map (fun r => (r.1, e :: r.2))

/-- `Agent.parse_cron_blocks` (agent.py 145-182): extract the `cron`
block bodies and validate each; returns `(jobs, errors)` or raises. -/
def parse_cron_blocks (text : Str) : Except Unit (List Json × List Str) :=
  parseCronList (cronBodies text)

/-! ## `Agent.chat` / `Agent._chat_request` (agent.py 109-143)

The HTTP exchange with Ollama is the external boundary; its possible
outcomes are enumerated as data and `_chat_request` / `chat` are the
source's `try/except` ladders over them. -/

/-- Outcome of `http_client.post` + `raise_for_status` + `response.json()`
+ `data["message"]["content"]` inside `Agent._chat_request`:
either the reply content, or one of the failure kinds the `except`
branches distinguish (`httpx.ConnectError`, `httpx.HTTPStatusError`,
`KeyError`, anything else). -/
inductive OllamaResult where
  | success (content : Str) : OllamaResult
  | connectError (msg : Str) : OllamaResult
  | statusError (code : Nat) (text : Str) : OllamaResult
  | missingKey (key : Str) : OllamaResult
  | otherError (ename emsg : Str) : OllamaResult

def isOllamaFailure : OllamaResult → Bool
  | .success _ => false
  | _ => true

/-- The error text `_chat_request` raises for each failure kind
(agent.py 123-130). -/
def chatRequestErrorMsg (host : Str) : OllamaResult → Str
  | .success _ => []
  | .connectError m =>
    ("Cannot connect to Ollama at ".toList) ++ host ++
      (". Is Ollama running? (".toList) ++ m ++ (")".toList)
  | .statusError code text =>
    ("Ollama returned error ".toList) ++ (Nat.repr code).toList ++ (": ".toList) ++ text
  | .missingKey k =>
    ("Unexpected response format from Ollama (missing ".toList) ++ k ++ (")".toList)
  | .otherError en em =>
    ("Ollama request failed: ".toList) ++ en ++ (": ".toList) ++ em

/-- `Agent._chat_request` (agent.py 109-130): returns the content on
success, re-raises every failure wrapped in `Exception(...)` with the
message of `chatRequestErrorMsg`. -/
def chat_request (host : Str) (r : OllamaResult) : Except Str Str :=
  match r with
  | .success c => .ok c
  | f => .error (chatRequestErrorMsg host f)

/-- `Agent.chat` (agent.py 132-143): `try: return _chat_request(...)`
`except Exception as e: return f"Sorry, ... {e}"`.  Its codomain is a
plain string: no exception escapes. -/
def chat (host : Str) (r : OllamaResult) : Str :=
  match chat_request host r with
  | .ok reply => reply
  | .error e => ("Sorry, I had trouble thinking about that. Error: ".toList) ++ e

/-! ## `Memory` (memory.py) and `Scheduler` (scheduler.py) -/

/-- A row of the `cron_jobs` table. -/
structure CronRow where
  id : Nat
  user_id : Int
  schedule : Str
  task : Str
  message : Str
  enabled : Bool
deriving DecidableEq, Repr

/-- A row of the `conversations` table. -/
structure ConvRow where
  id : Nat
  user_id : Int
  role : Str
  content : Str
deriving DecidableEq, Repr

/-- The SQLite database of `Memory`: both tables, plus the last
`AUTOINCREMENT` rowid of each (the next insert gets `seq + 1`). -/
structure MemDB where
  conversations : List ConvRow
  convSeq : Nat
  cron_jobs : List CronRow
  cronSeq : Nat
deriving DecidableEq, Repr

/-- `Memory.add_message` (memory.py 54-60). -/
def add_message (db : MemDB) (user_id : Int) (role content : Str) : MemDB :=
  { db with
    conversations := db.conversations ++ [⟨db.convSeq + 1, user_id, role, content⟩]
    convSeq := db.convSeq + 1 }

/-- `Memory.get_history` (memory.py 62-71): the user's last `limit`
messages by rowid, oldest first (`ORDER BY id DESC LIMIT ?`, then
reversed in Python). -/
def get_history (db : MemDB) (user_id : Int) (limit : Nat) : List ConvRow :=
  ((((db.conversations.filter (fun r => r.user_id = user_id)).reverse).take limit).reverse)

/-- `Memory.add_cron_job` (memory.py 82-92): insert enabled, return
`lastrowid`. -/
def add_cron_job (db : MemDB) (user_id : Int) (schedule task message : Str) :
    Nat × MemDB :=
  let id := db.cronSeq + 1
  (id,
    { db with
      cron_jobs := db.cron_jobs ++ [⟨id, user_id, schedule, task, message, true⟩]
      cronSeq := id })

/-- Python truthiness of the optional `user_id` argument of
`get_cron_jobs`: `None` and `0` are falsy. -/
def truthyUser : Option Int → Bool
  | none => false
  | some u => u ≠ 0

/-- `Memory.get_cron_jobs` (memory.py 94-118): enabled rows, filtered by
user only when `user_id` is truthy. -/
def get_cron_jobs (db : MemDB) (user_id : Option Int) : List CronRow :=
  if truthyUser user_id then
    db.cron_jobs.filter (fun r => r.user_id = user_id.getD 0 ∧ r.enabled)
  else
    db.cron_jobs.filter (fun r => r.enabled)

/-- `Memory.disable_cron_job` (memory.py 120-126):
`UPDATE cron_jobs SET enabled = 0 WHERE id = ?`; returns
`rowcount > 0`, and SQLite counts every row matched by the `WHERE`
clause (also one whose `enabled` is already `0`). -/
def disable_cron_job (db : MemDB) (job_id : Nat) : Bool × MemDB :=
  (db.cron_jobs.any (fun r => r.id = job_id),
    { db with
      cron_jobs := db.cron_jobs.map
        (fun r => if r.id = job_id then { r with enabled := false } else r) })

/-- State of a `Scheduler`: the `Memory` database plus the ids of the
jobs currently registered with the live `AsyncIOScheduler`. -/
structure SchedState where
  db : MemDB
  timers : List Str
deriving DecidableEq, Repr

/-- The APScheduler job id `f"cron_{job_id}"`. -/
def cronKey (job_id : Nat) : Str := ("cron_".toList) ++ (Nat.repr job_id).toList

/-- `Scheduler._add_apscheduler_job` (scheduler.py 74-98): skip (with a
warning) when the schedule does not split into exactly five fields;
otherwise build a `CronTrigger` — `triggerOk` abstracts whether the
APScheduler library accepts the five fields — and register under
`cron_{id}` with `replace_existing=True`; a library error is caught and
logged, registering nothing. -/
def add_apscheduler_job (triggerOk : Str → Bool) (timers : List Str)
    (job_id : Nat) (schedule : Str) : List Str :=
  if (pySplit schedule).length ≠ 5 then timers
  else if triggerOk schedule then
    (timers.filter (fun t => t ≠ cronKey job_id)) ++ [cronKey job_id]
  else timers

/-- `Scheduler.add_job` (scheduler.py 43-57): persist the job via
`Memory.add_cron_job` first, then hand it to `_add_apscheduler_job`;
returns the new id. -/
def add_job (triggerOk : Str → Bool) (st : SchedState) (user_id : Int)
    (schedule task message : Str) : Nat × SchedState :=
  let (job_id, db') := add_cron_job st.db user_id schedule task message
  (job_id, ⟨db', add_apscheduler_job triggerOk st.timers job_id schedule⟩)

/-- `Scheduler.cancel_job` (scheduler.py 59-68): disable in the store;
on success remove the timer, ignoring `remove_job`'s error if it is not
registered; return the store's answer. -/
def cancel_job (st : SchedState) (job_id : Nat) : Bool × SchedState :=
  let (success, db') := disable_cron_job st.db job_id
  (success,
    ⟨db', if success then st.timers.filter (fun t => t ≠ cronKey job_id) else st.timers⟩)

/-- `Scheduler.list_jobs` (scheduler.py 70-72). -/
def list_jobs (st : SchedState) (user_id : Int) : List CronRow :=
  get_cron_jobs st.db (some user_id)

/-- `Scheduler._execute_job` (scheduler.py 100-110): call every send
callback with `(user_id, message)`, each call wrapped in its own
`try/except` — an `.error` outcome is logged and the loop continues.
A callback is modelled by what its `await` does: `.ok` delivered,
`.error` raised.  The codomain (the per-callback delivery record, no
`Except`) is the catch: no exception leaves `_execute_job`. -/
def execute_job (callbacks : List (Int → Str → Except Str Unit))
    (user_id : Int) (message : Str) : List Bool :=
  callbacks.map (fun cb => match cb user_id message with
    | .ok _ => true
    | .error _ => false)

/-! ## `PiLobsterTUI.check_for_new_messages` (tui.py 328-358) -/

/-- The rendering of one history row by `check_for_new_messages`
(tui.py 345-354): an assistant row is passed through
`Agent.clean_response`, a user row is shown verbatim. -/
def renderRow (r : ConvRow) : Str :=
  if r.role = ("assistant".toList) then clean_response r.content else r.content

/-- The call `self.memory.get_history(limit=100)` at tui.py 338.
`Memory.get_history` (memory.py 62) takes a required positional
`user_id` before its `limit`; the keyword-only call leaves `user_id`
unbound, so the call raises `TypeError` instead of returning rows. -/
def tuiGetHistoryCall (_db : MemDB) : Except Unit (List ConvRow) :=
  .error ()

/-- `PiLobsterTUI.check_for_new_messages` (tui.py 328-358): returns the
list of rendered messages and the new `last_message_count`.  The whole
body is wrapped in `try ... except Exception` which only logs, so the
`TypeError` from the `get_history` call (see `tuiGetHistoryCall`) makes
every poll render nothing and leave the counter unchanged.  The `.ok`
branch transcribes tui.py 337-356 and is unreachable. -/
def check_for_new_messages (db : MemDB) (processing : Bool)
    (last_message_count : Nat) : List Str × Nat :=
  if processing then ([], last_message_count)
  else
    match tuiGetHistoryCall db with
    | .error _ => ([], last_message_count)
    | .ok history =>
      let current_count := history.length
      if last_message_count < current_count then
        ((history.drop last_message_count).map renderRow, current_count)
      else ([], last_message_count)

/-! ## `Agent.save_to_memory` (agent.py 55-80) -/

/-- Python `needle in haystack` on strings: contiguous substring. -/
def pyIn (needle haystack : Str) : Bool := decide (needle <:+: haystack)

/-- `Agent.save_to_memory` (agent.py 55-80) on the agent state
`(memory_content, file)` where `file` is the text of `memory.md` (a
missing file behaves as the empty text: `open(..., "a")` creates it
before `stat` is read).  Returns `(result, memory_content', file')`:
if `memory_content` is truthy (non-empty) and the stripped fact is a
substring of it, return `False` unchanged; otherwise append
`"- " + fact.strip() + "\n"` to the file — preceded by `"\n"` when the
file was non-empty — reload `memory_content` as the stripped file text,
and return `True`. -/
def save_to_memory (memory_content file fact : Str) : Bool × Str × Str :=
  if memory_content ≠ [] ∧ pyIn (pyStrip fact) memory_content then
    (false, memory_content, file)
  else
    let file' := file ++ (if file.length > 0 then ("\n".toList) else []) ++
      ("- ".toList) ++ pyStrip fact ++ ("\n".toList)
    (true, pyStrip file', file')

/-! ## `Workspace.save_file` (workspace.py 19-43) -/

/-- Split on `'/'`, keeping empty fields (the components of a POSIX
path string before the path parser drops the trivial ones). -/
def splitSlash : Str → List Str
  | [] => [[]]
  | c :: rest =>
    let r := splitSlash rest
    if c = '/' then [] :: r else (c :: r.headD []) :: r.tail

/-- `pathlib.PurePosixPath(s).name`: the final path component; `'.'`
components and empty components are dropped by the path parser, `'..'`
is kept (pathlib does not resolve it). -/
def pyPathName (s : Str) : Str :=
  ((splitSlash s).filter (fun comp => comp ≠ [] ∧ comp ≠ (".".toList))).getLastD []

/-- `PurePath.suffix` of a final component `n`: `n[i:]` for the last
dot at `0 < i < len(n) - 1`, else empty. -/
def pySuffix (n : Str) : Str :=
  match (n.reverse.takeWhile (fun c => c ≠ '.')).length with
  | ext =>
    if ext + 1 < n.length ∧ ext < n.length ∧ 0 < ext then '.' :: (n.reverse.take ext).reverse
    else []

/-- `PurePath.stem`: the final component without `pySuffix`. -/
def pyStem (n : Str) : Str :=
  n.take (n.length - (pySuffix n).length)

/-- Does a name exist in the workspace directory?  `entries` are the
directory's entries; `".."` (the parent directory, which always exists —
the workspace was created with `mkdir(parents=True)`) exists as well. -/
def pathExists (entries : List Str) (name : Str) : Bool :=
  name = ("..".toList) || entries.contains name

/-- The collision loop of `Workspace.save_file` (workspace.py 32-38):
try `f"{stem}_{counter}{suffix}"` for `counter = k, k+1, ...` until a
name does not exist.  Fuelled; `saveFileFuelSufficient` below shows fuel
`entries.length + 1` always suffices. -/
def collisionLoop (entries : List Str) (stem suffix : Str) : Nat → Nat → Option Str
  | 0, _ => none
  | fuel + 1, k =>
    let cand := stem ++ '_' :: ((Nat.repr k).toList ++ suffix)
    if pathExists entries cand then collisionLoop entries stem suffix fuel (k + 1)
    else some cand

/-- The sanitised name of `Workspace.save_file`:
`Path(filename).name`, falling back to `"untitled.txt"` when empty. -/
def safeName (filename : Str) : Str :=
  if pyPathName filename = [] then ("untitled.txt".toList) else pyPathName filename

/-- `Workspace.save_file` (workspace.py 19-43): sanitise the filename to
its final component (`"untitled.txt"` when empty), then write to the
first non-existing of `name, {stem}_1{suffix}, {stem}_2{suffix}, ...`;
the returned name is the one written.  `none` is the fuel running out,
which `collisionLoop_succeeds` below shows cannot happen (the file
content plays no part in the name choice and is omitted). -/
def save_file (entries : List Str) (filename : Str) : Option Str :=
  if pathExists entries (safeName filename) then
    collisionLoop entries (pyStem (safeName filename)) (pySuffix (safeName filename))
      (entries.length + 1) 1
  else some (safeName filename)

/-! ## Concrete example inputs used by counterexamples and witnesses -/

/-- A response text in which deleting the first `cron` block splices the
two stray backticks before it onto the backtick left after it, forming a
new `cron` block: `clean_response` is not idempotent on it. -/
def spliceText : Str := "`````cron\nx\n````cron\ny\n```".toList

/-- The well-formed schedule-directive body of the spec's example. -/
def wellCronBody : Str :=
  "\x7b\"schedule\":\"*/5 * * * *\",\"task\":\"t\",\"message\":\"m\"\x7d".toList

/-- The same body with `"message"` missing. -/
def noMsgCronBody : Str :=
  "\x7b\"schedule\":\"*/5 * * * *\",\"task\":\"t\"\x7d".toList

/-- `json.loads wellCronBody` as members. -/
def wellCronKvs : List (Str × Json) :=
  [(("schedule".toList), Json.str ("*/5 * * * *".toList)),
   (("task".toList), Json.str ("t".toList)),
   (("message".toList), Json.str ("m".toList))]

/-- `json.loads noMsgCronBody` as members. -/
def noMsgCronKvs : List (Str × Json) :=
  [(("schedule".toList), Json.str ("*/5 * * * *".toList)),
   (("task".toList), Json.str ("t".toList))]

/-- A response consisting of one well-formed `cron` block. -/
def wellCronText : Str := ("```cron\n".toList) ++ wellCronBody ++ ("\n```".toList)

/-- A response consisting of one `cron` block whose body misses
`"message"`. -/
def noMsgCronText : Str := ("```cron\n".toList) ++ noMsgCronBody ++ ("\n```".toList)

/-- A conversation store holding messages with rowids 1..8 for user 1 —
the spec's `sync(since=5)` example state, where rows 6, 7, 8 are the
delta a poll should render. -/
def exDB : MemDB :=
  { conversations := (List.range 8).map
      (fun i => ⟨i + 1, 1, ("user".toList), ("m".toList) ++ (Nat.repr (i + 1)).toList⟩)
    convSeq := 8
    cron_jobs := []
    cronSeq := 0 }

/-- The empty scheduler state. -/
def emptySched : SchedState := ⟨⟨[], 0, [], 0⟩, []⟩

/-- Decimal value of a digit string — the inverse of `Nat.repr` used to
prove `Nat.repr` injective. -/
def valD : Str → Nat
  | [] => 0
  | c :: cs => (c.toNat - 48) * 10 ^ cs.length + valD cs

/-! # Theorems -/

/-! ## String helper lemmas -/

theorem dropWhile_idem {α : Type} (p : α → Bool) (l : List α) :
    (l.dropWhile p).dropWhile p = l.dropWhile p := by
  cases h : l.dropWhile p with
  | nil => rfl
  | cons a as =>
    have ha : p a = false := by
      have hne : l.dropWhile p ≠ [] := by simp [h]
      have := List.head_dropWhile_not p l hne
      simpa [h] using this
    simp [List.dropWhile_cons, ha]

theorem pyLStrip_of_prefix {l m : Str} (hl : pyLStrip l = l) (hp : m <+: l) :
    pyLStrip m = m := by
  cases m with
  | nil => rfl
  | cons a as =>
    obtain ⟨t, ht⟩ := hp
    have hpa : isPySpace a = false := by
      by_contra hcontra
      have hpa' : isPySpace a = true := by
        revert hcontra
        cases isPySpace a <;> simp
      have hd : List.dropWhile isPySpace (a :: (as ++ t)) = a :: (as ++ t) := by
        have h0 := hl
        rw [← ht] at h0
        simpa [pyLStrip, List.cons_append] using h0
      rw [List.dropWhile_cons, hpa'] at hd
      simp only [if_true, eq_self_iff_true] at hd
      have hle : (List.dropWhile isPySpace (as ++ t)).length ≤ (as ++ t).length :=
        (List.dropWhile_suffix (l := as ++ t) isPySpace).length_le
      rw [hd] at hle
      simp at hle
    simp [pyLStrip, List.dropWhile_cons, hpa]

theorem pyRStrip_isPrefixOf_self (l : Str) : pyRStrip l <+: l := by
  have h : List.dropWhile isPySpace l.reverse <:+ l.reverse := List.dropWhile_suffix _
  rw [pyRStrip, ← List.reverse_suffix]
  simpa using h

theorem pyRStrip_idem (l : Str) : pyRStrip (pyRStrip l) = pyRStrip l := by
  simp [pyRStrip, dropWhile_idem]

theorem pyLStrip_idem (l : Str) : pyLStrip (pyLStrip l) = pyLStrip l :=
  dropWhile_idem _ _

theorem pyStrip_idem (s : Str) : pyStrip (pyStrip s) = pyStrip s := by
  unfold pyStrip
  have h1 : pyLStrip (pyLStrip s) = pyLStrip s := pyLStrip_idem s
  have h2 : pyLStrip (pyRStrip (pyLStrip s)) = pyRStrip (pyLStrip s) :=
    pyLStrip_of_prefix h1 (pyRStrip_isPrefixOf_self _)
  rw [h2, pyRStrip_idem]

/-! ## `re` driver lemmas -/

theorem reSubDel_of_scan_none {m : Matcher} {s : Str} (h : reScan m s = none) :
    reSubDel m s = s := by
  unfold reSubDel
  cases hn : s.length with
  | zero => rfl
  | succ k => simp [reSubDelAux, h]

theorem reFindAll_of_scan_none {m : Matcher} {s : Str} (h : reScan m s = none) :
    reFindAll m s = [] := by
  unfold reFindAll
  cases hn : s.length with
  | zero => rfl
  | succ k => simp [reFindAllAux, h]

/-! ## Claim C3 -/

/-- C3 (counterexample): `Agent.clean_response` is not idempotent.  On
`spliceText`, deleting the first `cron` block splices the two backticks
before it onto the lone backtick after it, forming a new `cron` block
that only a second pass removes: `clean(clean(text)) ≠ clean(text)`. -/
theorem claim_C3_counterexample :
    clean_response (clean_response spliceText) ≠ clean_response spliceText := by
  decide

/-- C3 (amended): `clean` is idempotent on every text whose cleaned form
contains no further directive block; in general a second application can
remove more, because deleting a block can splice the surrounding
characters into a new block (see `claim_C3_counterexample`). -/
theorem claim_C3_amended (t : Str)
    (h1 : reScan cronM (clean_response t) = none)
    (h2 : reScan saveM (clean_response t) = none)
    (h3 : reScan memM (clean_response t) = none) :
    clean_response (clean_response t) = clean_response t := by
  have step : clean_response (clean_response t) = pyStrip (clean_response t) := by
    show pyStrip (reSubDel memM (reSubDel saveM (reSubDel cronM (clean_response t)))) =
      pyStrip (clean_response t)
    rw [reSubDel_of_scan_none h1, reSubDel_of_scan_none h2, reSubDel_of_scan_none h3]
  rw [step, clean_response, pyStrip_idem]

theorem claim_C3_amended_witness :
    clean_response (clean_response ("hello ```world".toList)) =
      clean_response ("hello ```world".toList) :=
  claim_C3_amended _ (by decide) (by decide) (by decide)

/-! ## Claim C4 -/

/-- C4: on a text with no `cron`, `save` or `memory` block match,
`parse_cron_blocks` returns two empty lists (no directives, no
validation errors), `parse_save_blocks` and `parse_memory_blocks`
return empty lists, and `clean_response` is exactly `str.strip`. -/
theorem claim_C4 (t : Str)
    (h1 : reScan cronM t = none)
    (h2 : reScan saveM t = none)
    (h3 : reScan memM t = none) :
    parse_cron_blocks t = .ok ([], []) ∧ parse_save_blocks t = [] ∧
      parse_memory_blocks t = [] ∧ clean_response t = pyStrip t := by
  refine ⟨?_, ?_, ?_, ?_⟩
  · unfold parse_cron_blocks cronBodies
    rw [reFindAll_of_scan_none h1]
    rfl
  · unfold parse_save_blocks
    rw [reFindAll_of_scan_none h2]
    rfl
  · unfold parse_memory_blocks
    rw [reFindAll_of_scan_none h3]
    rfl
  · unfold clean_response
    rw [reSubDel_of_scan_none h1, reSubDel_of_scan_none h2, reSubDel_of_scan_none h3]

theorem claim_C4_witness :
    parse_cron_blocks ("  just prose, no blocks.  ".toList) = .ok ([], []) ∧
      parse_save_blocks ("  just prose, no blocks.  ".toList) = [] ∧
      parse_memory_blocks ("  just prose, no blocks.  ".toList) = [] ∧
      clean_response ("  just prose, no blocks.  ".toList) =
        pyStrip ("  just prose, no blocks.  ".toList) :=
  claim_C4 _ (by decide) (by decide) (by decide)

/-! ## Claim C5 -/

/-- C5: for a `cron` block body decoding to a JSON object, the loop of
`parse_cron_blocks` (1) turns a missing required field into the
validation error string `Missing required fields: ...` naming the
missing fields — an error entry, not an exception, and no job entry;
(2) turns a string schedule that does not split into exactly five
whitespace-separated fields into the error string
`Invalid cron format '...' - needs 5 fields ...`; (3) accepts a body
with all three fields and a five-field schedule as one job with no
error; and (4) `parse_cron_blocks` on a text with exactly one such
block returns the error in its error list and an empty job list. -/
theorem claim_C5 :
    (∀ body kvs miss, json_loads (pyStrip body) = .ok (.obj kvs) →
      missingKeys (.obj kvs) = .ok miss → miss ≠ [] →
      processCronBody body = .err (missingMsg miss)) ∧
    (∀ body kvs sch, json_loads (pyStrip body) = .ok (.obj kvs) →
      missingKeys (.obj kvs) = .ok [] →
      pyGetItem (.obj kvs) ("schedule".toList) = .ok (.str sch) →
      (pySplit sch).length ≠ 5 →
      processCronBody body = .err (invalidCronMsg sch)) ∧
    (∀ body kvs sch, json_loads (pyStrip body) = .ok (.obj kvs) →
      missingKeys (.obj kvs) = .ok [] →
      pyGetItem (.obj kvs) ("schedule".toList) = .ok (.str sch) →
      (pySplit sch).length = 5 →
      processCronBody body = .job (.obj kvs)) ∧
    (∀ t body e, cronBodies t = [body] → processCronBody body = .err e →
      parse_cron_blocks t = .ok ([], [e])) := by
  have eBody : ∀ body kvs, json_loads (pyStrip body) = .ok (.obj kvs) →
      processCronBody body = cronValidate (.obj kvs) := by
    intro body kvs hj
    unfold processCronBody
    rw [hj]
  have eVal : ∀ kvs miss, missingKeys (.obj kvs) = .ok miss →
      cronValidate (.obj kvs) =
        (if miss ≠ [] then CronOutcome.err (missingMsg miss)
          else cronCheckSchedule (.obj kvs)) := by
    intro kvs miss hm
    unfold cronValidate
    rw [hm]
  have eSch : ∀ kvs sch, pyGetItem (.obj kvs) ("schedule".toList) = .ok (.str sch) →
      cronCheckSchedule (.obj kvs) =
        (if (pySplit sch).length ≠ 5 then CronOutcome.err (invalidCronMsg sch)
          else CronOutcome.job (.obj kvs)) := by
    intro kvs sch hg
    unfold cronCheckSchedule
    rw [hg]
  refine ⟨?_, ?_, ?_, ?_⟩
  · intro body kvs miss hj hm hne
    rw [eBody body kvs hj, eVal kvs miss hm]
    simp [hne]
  · intro body kvs sch hj hm hg hlen
    rw [eBody body kvs hj, eVal kvs [] hm]
    simp only [ne_eq, not_true_eq_false, if_false, reduceIte]
    rw [eSch kvs sch hg]
    simp [hlen]
  · intro body kvs sch hj hm hg hlen
    rw [eBody body kvs hj, eVal kvs [] hm]
    simp only [ne_eq, not_true_eq_false, if_false, reduceIte]
    rw [eSch kvs sch hg]
    simp [hlen]
  · intro t body e hb he
    unfold parse_cron_blocks
    rw [hb]
    simp [parseCronList, he, Except.map]

theorem claim_C5_witness :
    processCronBody noMsgCronBody = .err (missingMsg [("message".toList)]) ∧
      processCronBody wellCronBody = .job (.obj wellCronKvs) ∧
      parse_cron_blocks noMsgCronText = .ok ([], [missingMsg [("message".toList)]]) :=
  ⟨claim_C5.1 noMsgCronBody noMsgCronKvs _ rfl rfl (by decide),
   claim_C5.2.2.1 wellCronBody wellCronKvs _ rfl rfl rfl (by decide),
   claim_C5.2.2.2 noMsgCronText noMsgCronBody _ rfl
     (claim_C5.1 noMsgCronBody noMsgCronKvs _ rfl rfl (by decide))⟩

/-! ## Claim C1 -/

/-- C1 (counterexample): `Scheduler.add_job` persists before any
validation.  Adding a job with the three-field schedule `1 2 3` to an
empty store writes a job record with that invalid schedule, enabled,
into the persisted `cron_jobs` table — refuting that "no job record
with that invalid schedule is ever written to the persisted job store".
-/
theorem claim_C1_counterexample :
    (add_job (fun _ => true) emptySched 1 ("1 2 3".toList) ("t".toList)
        ("m".toList)).2.db.cron_jobs =
      [⟨1, 1, ("1 2 3".toList), ("t".toList), ("m".toList), true⟩] ∧
    (pySplit ("1 2 3".toList)).length = 3 := by
  constructor
  · rfl
  · decide

/-- C1 (amended): `Scheduler.add_job` persists the job unconditionally
(enabled, under a fresh id); the five-field check happens only inside
`_add_apscheduler_job`, which for an invalid schedule logs a warning and
registers no timer.  So an invalid schedule does reach the persisted
store, but never the timer engine. -/
theorem claim_C1_amended (triggerOk : Str → Bool) (st : SchedState) (user_id : Int)
    (schedule task message : Str) (h : (pySplit schedule).length ≠ 5) :
    (add_job triggerOk st user_id schedule task message).1 = st.db.cronSeq + 1 ∧
    (add_job triggerOk st user_id schedule task message).2.db.cron_jobs =
      st.db.cron_jobs ++
        [⟨st.db.cronSeq + 1, user_id, schedule, task, message, true⟩] ∧
    (add_job triggerOk st user_id schedule task message).2.timers = st.timers := by
  refine ⟨rfl, rfl, ?_⟩
  simp [add_job, add_cron_job, add_apscheduler_job, h]

theorem claim_C1_amended_witness :
    (pySplit ("1 2 3".toList)).length ≠ 5 ∧
    (add_job (fun _ => true) emptySched 1 ("1 2 3".toList) ("t".toList)
        ("m".toList)).2.timers = emptySched.timers :=
  ⟨by decide,
   (claim_C1_amended (fun _ => true) emptySched 1 ("1 2 3".toList) ("t".toList)
      ("m".toList) (by decide)).2.2⟩

/-! ## Claim C2 -/

/-- C2: the TUI's pull-based sync is broken — `check_for_new_messages`
(tui.py 338) calls `memory.get_history(limit=100)`, but
`Memory.get_history` (memory.py 62) requires a positional `user_id`, so
the call raises `TypeError`, which the surrounding `except Exception`
swallows after logging.  Hence every poll renders nothing and leaves the
counter unchanged — never the delta the spec requires.  On the spec's
example store (`exDB`, rows 1..8) a poll at `since = 5` renders `[]`
although rows 6, 7, 8 are newer than 5. -/
theorem claim_C2_sync_never_renders :
    (∀ (db : MemDB) (processing : Bool) (last : Nat),
      check_for_new_messages db processing last = ([], last)) ∧
    check_for_new_messages exDB false 5 = ([], 5) ∧
    (get_history exDB 1 100).map (fun r => r.id) = [1, 2, 3, 4, 5, 6, 7, 8] := by
  refine ⟨?_, ?_, ?_⟩
  · intro db processing last
    unfold check_for_new_messages tuiGetHistoryCall
    cases processing <;> rfl
  · rfl
  · decide

/-! ## Claim C7 -/

/-- C7: `Scheduler._execute_job` wraps each send callback in its own
`try/except`; a raising callback is recorded as a failed delivery and
the loop continues: the broadcast call is total (it returns the
per-callback outcome list, never an exception), every callback is
invoked with the message, and a callback that succeeds is delivered to
even when the callback at another index raises. -/
theorem claim_C7 (cbs : List (Int → Str → Except Str Unit)) (user_id : Int)
    (message : Str) (i : Nat) (e : Str)
    (hi : cbs.get? i = some (fun _ _ => Except.error e)) :
    (execute_job cbs user_id message).length = cbs.length ∧
    (execute_job cbs user_id message).get? i = some false ∧
    (∀ j f, j ≠ i → cbs.get? j = some f → f user_id message = .ok () →
      (execute_job cbs user_id message).get? j = some true) := by
  refine ⟨by simp [execute_job], ?_, ?_⟩
  · unfold execute_job
    rw [List.get?_map, hi]
    rfl
  · intro j f _hji hj hok
    unfold execute_job
    rw [List.get?_map, hj]
    simp [hok]

theorem claim_C7_witness :
    (execute_job [(fun _ _ => Except.error ("boom".toList)),
        (fun _ _ => Except.ok ())] 1 ("x".toList)).get? 0 = some false ∧
    (execute_job [(fun _ _ => Except.error ("boom".toList)),
        (fun _ _ => Except.ok ())] 1 ("x".toList)).get? 1 = some true :=
  ⟨(claim_C7 [(fun _ _ => Except.error ("boom".toList)),
      (fun _ _ => Except.ok ())] 1 ("x".toList) 0 ("boom".toList) rfl).2.1,
   (claim_C7 [(fun _ _ => Except.error ("boom".toList)),
      (fun _ _ => Except.ok ())] 1 ("x".toList) 0 ("boom".toList) rfl).2.2 1 _
     (by decide) rfl rfl⟩

/-! ## Claim C8 -/

/-- C8: every failing model call produces the synthesized user-visible
reply `Sorry, I had trouble thinking about that. Error: ...` —
`_chat_request` wraps each failure kind in an `Exception` with a
descriptive message, and `chat` catches every exception and returns the
apology string in place of the reply (its codomain is a plain string:
nothing propagates, no turn is dropped). -/
theorem claim_C8 (host : Str) (r : OllamaResult) (h : isOllamaFailure r = true) :
    chat_request host r = .error (chatRequestErrorMsg host r) ∧
    chat host r = ("Sorry, I had trouble thinking about that. Error: ".toList) ++
      chatRequestErrorMsg host r := by
  cases r with
  | success c => simp [isOllamaFailure] at h
  | connectError m => exact ⟨rfl, rfl⟩
  | statusError c t => exact ⟨rfl, rfl⟩
  | missingKey k => exact ⟨rfl, rfl⟩
  | otherError a b => exact ⟨rfl, rfl⟩

theorem claim_C8_witness :
    chat ("http://localhost:11434".toList)
        (.connectError ("connection refused".toList)) =
      ("Sorry, I had trouble thinking about that. Error: ".toList) ++
        chatRequestErrorMsg ("http://localhost:11434".toList)
          (.connectError ("connection refused".toList)) :=
  (claim_C8 ("http://localhost:11434".toList)
    (.connectError ("connection refused".toList)) rfl).2

/-! ## Claim C10 -/

/-- C10 (counterexample): with empty memory content and a fact that
trims to the empty string, the trimmed fact *is* a substring of the
current memory content, yet `save_to_memory` returns `True` and appends
`- ` — because the code guards the substring check with the truthiness
of `memory_content`, skipping it for empty memory. -/
theorem claim_C10_counterexample :
    pyIn (pyStrip (" ".toList)) [] = true ∧
    save_to_memory [] [] (" ".toList) = (true, ("-".toList), ("- \n".toList)) := by
  constructor
  · decide
  · decide

/-- C10 (amended): when the current memory content is *non-empty* and
the trimmed fact occurs anywhere as a substring of it — also when it is
merely a substring of a stored fact — `save_to_memory` returns `False`
and leaves memory and file unchanged; otherwise (empty memory, or no
substring occurrence) it appends `"- " + fact.strip() + "\n"` to the
file (after a separating newline when the file was non-empty), reloads
the memory content as the stripped file, and returns `True`.
Deduplication is by substring containment, not equality. -/
theorem claim_C10_amended (memory_content file fact : Str) :
    (memory_content ≠ [] → pyIn (pyStrip fact) memory_content = true →
      save_to_memory memory_content file fact = (false, memory_content, file)) ∧
    (memory_content = [] ∨ pyIn (pyStrip fact) memory_content = false →
      save_to_memory memory_content file fact =
        (true,
          pyStrip (file ++ (if file.length > 0 then ("\n".toList) else []) ++
            ("- ".toList) ++ pyStrip fact ++ ("\n".toList)),
          file ++ (if file.length > 0 then ("\n".toList) else []) ++
            ("- ".toList) ++ pyStrip fact ++ ("\n".toList))) := by
  constructor
  · intro h1 h2
    unfold save_to_memory
    simp [h1, h2]
  · intro h
    unfold save_to_memory
    rcases h with h | h <;> simp [h]

theorem claim_C10_amended_witness :
    (("drink".toList) ≠ ([] : Str)) ∧
    pyIn (pyStrip (" drink ".toList)) ("drink".toList) = true ∧
    save_to_memory ("drink".toList) ("- drink\n".toList) (" drink ".toList) =
      (false, ("drink".toList), ("- drink\n".toList)) :=
  ⟨by decide, by decide,
   (claim_C10_amended ("drink".toList) ("- drink\n".toList) (" drink ".toList)).1
     (by decide) (by decide)⟩

/-! ## Claim C6 -/

/-- C6: on a well-formed store (every persisted id at most the
autoincrement counter), after `add_job` creates a job: the first
`cancel_job` of its id returns `True`; a second `cancel_job` of the same
id also returns `True` (the `UPDATE ... WHERE id = ?` still matches the
row); the id is absent from every subsequent `list_jobs` (the row is
disabled and filtered out); the job record survives in the store,
disabled rather than deleted; and in any state `cancel_job` returns
`False` exactly when no row ever carried that id. -/
theorem claim_C6 (triggerOk : Str → Bool) (st : SchedState) (user_id : Int)
    (schedule task message : Str)
    (hwf : ∀ r ∈ st.db.cron_jobs, r.id ≤ st.db.cronSeq) :
    (add_job triggerOk st user_id schedule task message).1 = st.db.cronSeq + 1 ∧
    (cancel_job (add_job triggerOk st user_id schedule task message).2
      (st.db.cronSeq + 1)).1 = true ∧
    (cancel_job (cancel_job (add_job triggerOk st user_id schedule task message).2
      (st.db.cronSeq + 1)).2 (st.db.cronSeq + 1)).1 = true ∧
    (∀ uid2 : Int, ∀ r ∈ list_jobs
        (cancel_job (cancel_job (add_job triggerOk st user_id schedule task message).2
          (st.db.cronSeq + 1)).2 (st.db.cronSeq + 1)).2 uid2,
      r.id ≠ st.db.cronSeq + 1) ∧
    (∃ r ∈ (cancel_job (cancel_job (add_job triggerOk st user_id schedule task message).2
        (st.db.cronSeq + 1)).2 (st.db.cronSeq + 1)).2.db.cron_jobs,
      r.id = st.db.cronSeq + 1 ∧ r.enabled = false) ∧
    (∀ (st' : SchedState) (j : Nat),
      (cancel_job st' j).1 = false ↔ ∀ r ∈ st'.db.cron_jobs, r.id ≠ j) := by
  have hne : ∀ r ∈ st.db.cron_jobs, r.id ≠ st.db.cronSeq + 1 := by
    intro r hr
    have := hwf r hr
    omega
  have hfix : st.db.cron_jobs.map
      (fun r => if r.id = st.db.cronSeq + 1 then { r with enabled := false } else r) =
        st.db.cron_jobs := by
    have hcongr : st.db.cron_jobs.map
        (fun r => if r.id = st.db.cronSeq + 1 then { r with enabled := false } else r) =
          st.db.cron_jobs.map id :=
      List.map_congr_left (fun r hr => by simp [hne r hr])
    rw [hcongr, List.map_id]
  have hjobs1 : (add_job triggerOk st user_id schedule task message).2.db.cron_jobs =
      st.db.cron_jobs ++
        [⟨st.db.cronSeq + 1, user_id, schedule, task, message, true⟩] := rfl
  have hjobs2 : (cancel_job (add_job triggerOk st user_id schedule task message).2
      (st.db.cronSeq + 1)).2.db.cron_jobs =
      st.db.cron_jobs ++
        [⟨st.db.cronSeq + 1, user_id, schedule, task, message, false⟩] := by
    show ((add_job triggerOk st user_id schedule task message).2.db.cron_jobs.map
      (fun r => if r.id = st.db.cronSeq + 1 then { r with enabled := false } else r)) = _
    rw [hjobs1, List.map_append, hfix]
    simp
  have hjobs3 : (cancel_job (cancel_job
      (add_job triggerOk st user_id schedule task message).2
      (st.db.cronSeq + 1)).2 (st.db.cronSeq + 1)).2.db.cron_jobs =
      st.db.cron_jobs ++
        [⟨st.db.cronSeq + 1, user_id, schedule, task, message, false⟩] := by
    show ((cancel_job (add_job triggerOk st user_id schedule task message).2
      (st.db.cronSeq + 1)).2.db.cron_jobs.map
      (fun r => if r.id = st.db.cronSeq + 1 then { r with enabled := false } else r)) = _
    rw [hjobs2, List.map_append, hfix]
    simp
  have hcancel_any : ∀ (st' : SchedState) (j : Nat),
      (cancel_job st' j).1 = st'.db.cron_jobs.any (fun r => r.id = j) := by
    intro st' j
    rfl
  refine ⟨rfl, ?_, ?_, ?_, ?_, ?_⟩
  · rw [hcancel_any, hjobs1]
    simp
  · rw [hcancel_any, hjobs2]
    simp
  · intro uid2 r hr
    have hmem : r ∈ (cancel_job (cancel_job
        (add_job triggerOk st user_id schedule task message).2
        (st.db.cronSeq + 1)).2 (st.db.cronSeq + 1)).2.db.cron_jobs ∧ r.enabled = true := by
      unfold list_jobs get_cron_jobs at hr
      by_cases htr : truthyUser (some uid2) = true
      · rw [if_pos htr] at hr
        have := List.mem_filter.mp hr
        refine ⟨this.1, ?_⟩
        have h2 := this.2
        simp at h2
        exact h2.2
      · rw [if_neg htr] at hr
        have := List.mem_filter.mp hr
        refine ⟨this.1, ?_⟩
        have h2 := this.2
        simpa using h2
    rw [hjobs3] at hmem
    rcases List.mem_append.mp hmem.1 with hold | hnew
    · exact hne r hold
    · have : r = ⟨st.db.cronSeq + 1, user_id, schedule, task, message, false⟩ := by
        simpa using hnew
      rw [this] at hmem
      simp at hmem
  · refine ⟨⟨st.db.cronSeq + 1, user_id, schedule, task, message, false⟩, ?_, rfl, rfl⟩
    rw [hjobs3]
    simp
  · intro st' j
    rw [hcancel_any]
    constructor
    · intro hfalse r hr hid
      have : st'.db.cron_jobs.any (fun r => r.id = j) = true := by
        rw [List.any_eq_true]
        exact ⟨r, hr, by simp [hid]⟩
      rw [this] at hfalse
      exact Bool.noConfusion hfalse
    · intro hall
      rw [Bool.eq_false_iff]
      intro hany
      obtain ⟨r, hr, hid⟩ := List.any_eq_true.mp hany
      exact hall r hr (by simpa using hid)

theorem claim_C6_witness :
    (cancel_job (add_job (fun _ => true) emptySched 1 ("* * * * *".toList)
      ("t".toList) ("m".toList)).2 1).1 = true ∧
    (cancel_job (cancel_job (add_job (fun _ => true) emptySched 1
      ("* * * * *".toList) ("t".toList) ("m".toList)).2 1).2 1).1 = true ∧
    (cancel_job emptySched 999999).1 = false := by
  have h := claim_C6 (fun _ => true) emptySched 1 ("* * * * *".toList)
    ("t".toList) ("m".toList) (by intro r hr; simp [emptySched] at hr)
  exact ⟨h.2.1, h.2.2.1, (h.2.2.2.2.2 emptySched 999999).mpr
    (by intro r hr; simp [emptySched] at hr)⟩

/-! ## Claim C9: arithmetic facts about `Nat.repr` -/

theorem digitChar_toNat {n : Nat} (h : n < 10) : (Nat.digitChar n).toNat = 48 + n := by
  interval_cases n <;> rfl

theorem isDigit_digitChar {n : Nat} (h : n < 10) : isDigit (Nat.digitChar n) = true := by
  interval_cases n <;> rfl

theorem valD_toDigitsCore :
    ∀ (fuel n : Nat) (acc : Str), n < 10 ^ fuel →
      valD (Nat.toDigitsCore 10 fuel n acc) = n * 10 ^ acc.length + valD acc := by
  intro fuel
  induction fuel with
  | zero =>
    intro n acc h
    have hn : n = 0 := by
      have : n < 1 := by simpa using h
      omega
    subst hn
    simp [Nat.toDigitsCore]
  | succ f ih =>
    intro n acc h
    have hd : valD (Nat.digitChar (n % 10) :: acc) =
        (n % 10) * 10 ^ acc.length + valD acc := by
      have hmod : n % 10 < 10 := Nat.mod_lt _ (by norm_num)
      show (((Nat.digitChar (n % 10)).toNat - 48)) * 10 ^ acc.length + valD acc = _
      rw [digitChar_toNat hmod]
      have h48 : 48 + n % 10 - 48 = n % 10 := by omega
      rw [h48]
    by_cases hdiv : n / 10 = 0
    · have hn : n < 10 := by
        rw [Nat.div_eq_zero_iff (by norm_num)] at hdiv
        exact hdiv
      have hsmall : n % 10 = n := Nat.mod_eq_of_lt hn
      simp only [Nat.toDigitsCore, hdiv, if_true, reduceIte]
      rw [hd, hsmall]
    · have h10 : (0 : Nat) < 10 := by norm_num
      have h' : n / 10 < 10 ^ f := by
        rw [Nat.div_lt_iff_lt_mul h10]
        rw [pow_succ] at h
        exact h
      simp only [Nat.toDigitsCore, hdiv, if_false, reduceIte]
      rw [ih (n / 10) (Nat.digitChar (n % 10) :: acc) h']
      have hlen : (Nat.digitChar (n % 10) :: acc).length = acc.length + 1 := rfl
      rw [hlen, hd, pow_succ]
      have hmod := Nat.div_add_mod n 10
      conv_rhs => rw [← hmod]
      ring

theorem valD_repr (n : Nat) : valD ((Nat.repr n).toList) = n := by
  have h1 : n < 10 ^ n := Nat.lt_pow_self (by norm_num) n
  have h2 : (10 : Nat) ^ n ≤ 10 ^ (n + 1) :=
    Nat.pow_le_pow_right (by norm_num) (Nat.le_succ n)
  have h : n < 10 ^ (n + 1) := lt_of_lt_of_le h1 h2
  show valD (Nat.toDigitsCore 10 (n + 1) n []) = n
  rw [valD_toDigitsCore (n + 1) n [] h]
  simp [valD]

theorem repr_toList_injective {a b : Nat}
    (h : (Nat.repr a).toList = (Nat.repr b).toList) : a = b := by
  rw [← valD_repr a, ← valD_repr b, h]

theorem toDigitsCore_chars :
    ∀ (fuel n : Nat) (acc : Str) (c : Char),
      c ∈ Nat.toDigitsCore 10 fuel n acc → c ∈ acc ∨ isDigit c = true := by
  intro fuel
  induction fuel with
  | zero =>
    intro n acc c hc
    exact Or.inl hc
  | succ f ih =>
    intro n acc c hc
    have hdig : c = Nat.digitChar (n % 10) → isDigit c = true := by
      intro hcd
      rw [hcd]
      exact isDigit_digitChar (Nat.mod_lt _ (by norm_num))
    by_cases hdiv : n / 10 = 0
    · simp only [Nat.toDigitsCore, hdiv, if_true, reduceIte] at hc
      rcases List.mem_cons.mp hc with hcd | hca
      · exact Or.inr (hdig hcd)
      · exact Or.inl hca
    · simp only [Nat.toDigitsCore, hdiv, if_false, reduceIte] at hc
      rcases ih (n / 10) (Nat.digitChar (n % 10) :: acc) c hc with hacc | hdigit
      · rcases List.mem_cons.mp hacc with hcd | hca
        · exact Or.inr (hdig hcd)
        · exact Or.inl hca
      · exact Or.inr hdigit

theorem repr_chars_digit {k : Nat} {c : Char} (hc : c ∈ (Nat.repr k).toList) :
    isDigit c = true := by
  have := toDigitsCore_chars (k + 1) k [] c hc
  simpa using this

/-! ## Claim C9: sanitisation and collision-loop lemmas -/

theorem splitSlash_ne_nil (s : Str) : splitSlash s ≠ [] := by
  cases s with
  | nil => simp [splitSlash]
  | cons c rest =>
    unfold splitSlash
    by_cases hc : c = '/' <;> simp [hc]

theorem splitSlash_no_slash :
    ∀ (s : Str) (x : Str), x ∈ splitSlash s → ∀ c ∈ x, c ≠ '/' := by
  intro s
  induction s with
  | nil =>
    intro x hx c hc
    simp [splitSlash] at hx
    subst hx
    simp at hc
  | cons a rest ih =>
    intro x hx c hc
    unfold splitSlash at hx
    by_cases ha : a = '/'
    · rw [if_pos ha] at hx
      rcases List.mem_cons.mp hx with hxe | hxr
      · subst hxe
        simp at hc
      · exact ih x hxr c hc
    · rw [if_neg ha] at hx
      rcases List.mem_cons.mp hx with hxe | hxr
      · subst hxe
        rcases List.mem_cons.mp hc with hce | hcr
        · subst hce
          exact ha
        · have hhead : (splitSlash rest).headD [] ∈ splitSlash rest := by
            cases hsr : splitSlash rest with
            | nil => exact absurd hsr (splitSlash_ne_nil rest)
            | cons y ys => simp
          exact ih _ hhead c hcr
      · exact ih x (List.mem_of_mem_tail hxr) c hc

theorem pyPathName_no_slash (s : Str) : ∀ c ∈ pyPathName s, c ≠ '/' := by
  intro c hc
  unfold pyPathName at hc
  cases hl : ((splitSlash s).filter (fun comp => comp ≠ [] ∧ comp ≠ (".".toList))) with
  | nil =>
    rw [hl] at hc
    simp at hc
  | cons y ys =>
    rw [hl] at hc
    have hmem : (y :: ys).getLastD [] ∈ y :: ys := by
      rw [List.getLastD_eq_getLast?,
        List.getLast?_eq_getLast (y :: ys) (List.cons_ne_nil y ys)]
      exact List.getLast_mem (List.cons_ne_nil y ys)
    have hfil : (y :: ys).getLastD [] ∈ (splitSlash s).filter
        (fun comp => comp ≠ [] ∧ comp ≠ (".".toList)) := by
      rw [hl]
      exact hmem
    have hins : (y :: ys).getLastD [] ∈ splitSlash s :=
      List.mem_of_mem_filter hfil
    exact splitSlash_no_slash s _ hins c hc

theorem collisionLoop_none_all (entries : List Str) (stem suffix : Str) :
    ∀ (fuel k : Nat), collisionLoop entries stem suffix fuel k = none →
      ∀ j < fuel,
        pathExists entries (stem ++ '_' :: ((Nat.repr (k + j)).toList ++ suffix)) = true := by
  intro fuel
  induction fuel with
  | zero =>
    intro k _ j hj
    omega
  | succ f ih =>
    intro k hnone j hj
    unfold collisionLoop at hnone
    by_cases hpe : pathExists entries (stem ++ '_' :: ((Nat.repr k).toList ++ suffix)) = true
    · rw [if_pos hpe] at hnone
      cases j with
      | zero => simpa using hpe
      | succ j' =>
        have := ih (k + 1) hnone j' (by omega)
        have harith : k + 1 + j' = k + (j' + 1) := by omega
        rw [harith] at this
        exact this
    · rw [if_neg hpe] at hnone
      exact absurd hnone (by simp)

theorem collisionLoop_some_spec (entries : List Str) (stem suffix : Str) :
    ∀ (fuel k : Nat) (name : Str), collisionLoop entries stem suffix fuel k = some name →
      pathExists entries name = false ∧
        ∃ j, name = stem ++ '_' :: ((Nat.repr (k + j)).toList ++ suffix) := by
  intro fuel
  induction fuel with
  | zero =>
    intro k name h
    simp [collisionLoop] at h
  | succ f ih =>
    intro k name h
    unfold collisionLoop at h
    by_cases hpe : pathExists entries (stem ++ '_' :: ((Nat.repr k).toList ++ suffix)) = true
    · rw [if_pos hpe] at h
      obtain ⟨hfalse, j, hj⟩ := ih (k + 1) name h
      refine ⟨hfalse, j + 1, ?_⟩
      have harith : k + 1 + j = k + (j + 1) := by omega
      rw [← harith]
      exact hj
    · rw [if_neg hpe] at h
      have hname : name = stem ++ '_' :: ((Nat.repr k).toList ++ suffix) := by
        simpa using h.symm
      refine ⟨?_, 0, by simpa using hname⟩
      rw [hname]
      simpa using hpe

theorem cand_injective (stem suffix : Str) {k1 k2 : Nat}
    (h : stem ++ '_' :: ((Nat.repr k1).toList ++ suffix) =
      stem ++ '_' :: ((Nat.repr k2).toList ++ suffix)) : k1 = k2 := by
  have h1 := List.append_cancel_left h
  have h2 : (Nat.repr k1).toList ++ suffix = (Nat.repr k2).toList ++ suffix := by
    injection h1
  have h3 := List.append_cancel_right h2
  exact repr_toList_injective h3

theorem cand_has_underscore (stem suffix : Str) (k : Nat) :
    '_' ∈ stem ++ '_' :: ((Nat.repr k).toList ++ suffix) := by
  simp

theorem cand_ne_dotdot (stem suffix : Str) (k : Nat) :
    stem ++ '_' :: ((Nat.repr k).toList ++ suffix) ≠ ("..".toList) := by
  intro h
  have := cand_has_underscore stem suffix k
  rw [h] at this
  simp at this

theorem collisionLoop_succeeds (entries : List Str) (stem suffix : Str) :
    collisionLoop entries stem suffix (entries.length + 1) 1 ≠ none := by
  intro hnone
  have hall := collisionLoop_none_all entries stem suffix (entries.length + 1) 1 hnone
  have hmem : ∀ j < entries.length + 1,
      (stem ++ '_' :: ((Nat.repr (1 + j)).toList ++ suffix)) ∈ entries := by
    intro j hj
    have h1 := hall j hj
    unfold pathExists at h1
    rcases Bool.or_eq_true_iff.mp h1 with hdd | hcont
    · exact absurd (by simpa using hdd) (cand_ne_dotdot stem suffix (1 + j))
    · simpa using hcont
  have hsub : (Finset.range (entries.length + 1)).image
      (fun j => stem ++ '_' :: ((Nat.repr (1 + j)).toList ++ suffix)) ⊆
        entries.toFinset := by
    intro x hx
    obtain ⟨j, hj, hxe⟩ := Finset.mem_image.mp hx
    rw [List.mem_toFinset]
    rw [← hxe]
    exact hmem j (Finset.mem_range.mp hj)
  have hcard1 : ((Finset.range (entries.length + 1)).image
      (fun j => stem ++ '_' :: ((Nat.repr (1 + j)).toList ++ suffix))).card =
        entries.length + 1 := by
    rw [Finset.card_image_of_injOn, Finset.card_range]
    intro a _ b _ hab
    have := cand_injective stem suffix hab
    omega
  have hcard2 := Finset.card_le_card hsub
  have hcard3 := List.toFinset_card_le entries
  rw [hcard1] at hcard2
  omega

theorem pyStem_subset (n : Str) : ∀ c ∈ pyStem n, c ∈ n := by
  intro c hc
  exact List.take_subset _ _ hc

theorem pySuffix_chars (n : Str) : ∀ c ∈ pySuffix n, c = '.' ∨ c ∈ n := by
  intro c hc
  unfold pySuffix at hc
  simp only [] at hc
  split at hc
  · rcases List.mem_cons.mp hc with h | h
    · exact Or.inl h
    · right
      rw [List.mem_reverse] at h
      have h2 := List.take_subset _ _ h
      exact List.mem_reverse.mp h2
  · simp at hc

theorem safeName_no_slash (filename : Str) : ∀ c ∈ safeName filename, c ≠ '/' := by
  unfold safeName
  by_cases hp : pyPathName filename = []
  · rw [if_pos hp]
    decide
  · rw [if_neg hp]
    exact pyPathName_no_slash filename

theorem safeName_ne_nil (filename : Str) : safeName filename ≠ [] := by
  unfold safeName
  by_cases hp : pyPathName filename = []
  · rw [if_pos hp]
    decide
  · rw [if_neg hp]
    exact hp

/-! ## Claim C9 -/

/-- C9: `Workspace.save_file` always succeeds and returns the name of
the file it writes; the name does not exist in the workspace beforehand
(no overwrite, with a `_k` suffix chosen on collision), contains no path
separator, is non-empty, and is not the parent directory `".."` — so the
write lands directly inside the workspace.  When the sanitised hint
(`Path(filename).name`, or `untitled.txt` for an empty result) is free,
it is used verbatim. -/
theorem claim_C9 (entries : List Str) (filename : Str) :
    ∃ name, save_file entries filename = some name ∧
      pathExists entries name = false ∧
      (∀ c ∈ name, c ≠ '/') ∧ name ≠ [] ∧ name ≠ ("..".toList) ∧
      (pathExists entries (safeName filename) = false → name = safeName filename) := by
  by_cases hex : pathExists entries (safeName filename) = true
  · have hsf : save_file entries filename =
        collisionLoop entries (pyStem (safeName filename)) (pySuffix (safeName filename))
          (entries.length + 1) 1 := by
      unfold save_file
      rw [if_pos hex]
    obtain ⟨name, hname⟩ : ∃ nm,
        collisionLoop entries (pyStem (safeName filename)) (pySuffix (safeName filename))
          (entries.length + 1) 1 = some nm := by
      cases hcl : collisionLoop entries (pyStem (safeName filename))
          (pySuffix (safeName filename)) (entries.length + 1) 1 with
      | none => exact absurd hcl (collisionLoop_succeeds entries _ _)
      | some nm => exact ⟨nm, rfl⟩
    obtain ⟨hfresh, j, hj⟩ := collisionLoop_some_spec entries _ _ _ _ name hname
    refine ⟨name, by rw [hsf]; exact hname, hfresh, ?_, ?_, ?_, ?_⟩
    · intro c hc
      rw [hj] at hc
      rcases List.mem_append.mp hc with hstem | hrest
      · exact safeName_no_slash filename c (pyStem_subset _ c hstem)
      · rcases List.mem_cons.mp hrest with hu | htail
        · subst hu
          decide
        · rcases List.mem_append.mp htail with hdig | hsuf
          · have hd := repr_chars_digit hdig
            intro hceq
            rw [hceq] at hd
            exact absurd hd (by decide)
          · rcases pySuffix_chars _ c hsuf with hdot | hin
            · subst hdot
              decide
            · exact safeName_no_slash filename c hin
    · rw [hj]
      simp
    · rw [hj]
      exact cand_ne_dotdot _ _ _
    · intro hfex
      rw [hfex] at hex
      exact absurd hex (by simp)
  · have hexf : pathExists entries (safeName filename) = false := by
      revert hex
      cases pathExists entries (safeName filename) <;> simp
    refine ⟨safeName filename, ?_, hexf, safeName_no_slash filename,
      safeName_ne_nil filename, ?_, fun _ => rfl⟩
    · unfold save_file
      rw [if_neg hex]
    · intro heq
      rw [heq] at hexf
      simp [pathExists] at hexf

theorem claim_C9_witness :
    ∃ name, save_file [("a.txt".toList), ("a_1.txt".toList)] ("../a.txt".toList) =
        some name ∧
      pathExists [("a.txt".toList), ("a_1.txt".toList)] name = false ∧
      (∀ c ∈ name, c ≠ '/') ∧ name ≠ [] ∧ name ≠ ("..".toList) ∧
      (pathExists [("a.txt".toList), ("a_1.txt".toList)]
          (safeName ("../a.txt".toList)) = false →
        name = safeName ("../a.txt".toList)) :=
  claim_C9 [("a.txt".toList), ("a_1.txt".toList)] ("../a.txt".toList)
